import Mathlib

/-!
Verification of `src/deed_finder.py` (Plymouth County Registry of Deeds
downloader).  The program drives a Selenium browser to locate a record by
book/page, derives a cookie-carrying `requests` session, downloads each page
image of the record into a temporary directory, reassembles the images into a
single PDF named from the record key, and wraps the whole pipeline in a
bounded retry loop.

The embedding below models, directly from the source:
  * `_go_to_search_page`'s choice of search entry point (threshold 2393);
  * `_get_page_url`'s `str.replace('ZOOM=1', 'ZOOM=6')` URL rewrite
    (`replaceAll` is Python's `str.replace`: every non-overlapping
    occurrence, scanned left to right);
  * the transient and output filename formats (`pad w n` is Python's
    `'{:0wd}'.format(n)` for nonnegative `n`);
  * the page-fetch `while` loop of `download_pdf` as an event trace;
  * `_create_pdf`'s sort-consume-output behaviour as an event trace with an
    explicit disk state;
  * the whole `download_pdf` call as a resource trace (the
    `tempfile.TemporaryDirectory` context manager releases the storage area
    on every exit path; the `Browser` object is created but the source never
    calls `quit`/`close` on it, so no `close_browser` event is ever emitted);
  * `main`'s retry loop as a message trace parametrised by the outcome of
    each attempt.

String comparison (`lexLtB`) is lexicographic comparison of code points,
which is exactly Python's `<` on `str`, used by `sorted` in `_create_pdf`.
-/

set_option maxRecDepth 100000

namespace DeedFinder

/-- Lexicographic (code-point) comparison of character lists: the order
Python uses on `str`.  `lexLtB xs ys = true` iff `xs < ys`. -/
def lexLtB : List Char → List Char → Bool
  | [], [] => false
  | [], _ :: _ => true
  | _ :: _, [] => false
  | a :: as, b :: bs =>
    if a.toNat < b.toNat then true
    else if b.toNat < a.toNat then false
    else lexLtB as bs

/-- Python's strict `<` on strings. -/
def str_lt (s t : String) : Prop := lexLtB s.data t.data = true

/-- Python's `<=` on strings (total order, so `s <= t` iff `not (t < s)`). -/
def str_le (s t : String) : Prop := lexLtB t.data s.data = false

instance (s t : String) : Decidable (str_lt s t) :=
  inferInstanceAs (Decidable (lexLtB s.data t.data = true))

instance (s t : String) : Decidable (str_le s t) :=
  inferInstanceAs (Decidable (lexLtB t.data s.data = false))

/-- A list of naturals is strictly increasing. -/
def strict_incr : List Nat → Bool
  | [] => true
  | [_] => true
  | a :: b :: t => decide (a < b) && strict_incr (b :: t)

/-- The retry bound of the source: `MAX_RETRIES: int = 2`. -/
def MAX_RETRIES : Nat := 2

/-- The search entry point chosen by `_go_to_search_page`: books below 2393
use `LinkButton02`, books at or above 2393 use `LinkButton01`. -/
def search_button_id (book : Nat) : String :=
  if book < 2393 then "Navigator1_SearchCriteria1_LinkButton02"
  else "Navigator1_SearchCriteria1_LinkButton01"

/-- Python's `str.replace`: replace every non-overlapping occurrence of
`pat` by `rep`, scanning left to right.  (`_get_page_url` calls it with the
nonempty pattern `'ZOOM=1'`.) -/
def replaceAll (pat rep : List Char) : List Char → List Char
  | [] => []
  | c :: cs =>
    if pat.isPrefixOf (c :: cs) then rep ++ replaceAll pat rep (cs.drop (pat.length - 1))
    else c :: replaceAll pat rep cs
termination_by xs => xs.length
decreasing_by
  all_goals simp only [List.length_drop, List.length_cons]
  all_goals omega

/-- The URL transform of `_get_page_url`:
`image_url.replace('ZOOM=1', 'ZOOM=6')`. -/
def get_page_url (image_url : String) : String :=
  String.mk (replaceAll "ZOOM=1".data "ZOOM=6".data image_url.data)

/-- Python's `'{:0wd}'.format(n)` for a nonnegative integer `n`: the decimal
digits of `n`, left-padded with zeros to width `w`. -/
def pad (w n : Nat) : String :=
  let s := toString n
  if s.length < w then String.mk (List.replicate (w - s.length) '0') ++ s else s

/-- The transient per-page name built in `download_pdf`:
`'{dir}/bk_{bk:06d}_pg_{pg:06d}_{curr:02d}_of_{tot:02d}'`. -/
def page_name (dir : String) (bk pg curr tot : Nat) : String :=
  dir ++ "/bk_" ++ pad 6 bk ++ "_pg_" ++ pad 6 pg ++ "_" ++ pad 2 curr ++ "_of_" ++ pad 2 tot

/-- The transient file written by `_download_image`: `'{}.jpg'.format(img_name)`. -/
def page_file_path (dir : String) (bk pg curr tot : Nat) : String :=
  page_name dir bk pg curr tot ++ ".jpg"

/-- The artifact name built in `download_pdf`:
`'plymouth_cty_reg_deeds_book{:06d}_page{:06d}.pdf'.format(book, page)`. -/
def pdf_name (book page : Nat) : String :=
  "plymouth_cty_reg_deeds_book" ++ pad 6 book ++ "_page" ++ pad 6 page ++ ".pdf"

/-- The artifact location built in `_create_pdf`:
`'{}/{}'.format(output_dir, pdf_name)`. -/
def output_path (output_dir : String) (book page : Nat) : String :=
  output_dir ++ "/" ++ pdf_name book page

/-- One observable action of the page-fetch `while` loop of `download_pdf`:
downloading the image of the currently displayed page, or clicking through
to the next page (`_go_to_next_page`). -/
inductive FetchEvent
  | download (idx : Nat)
  | advance
deriving DecidableEq

/-- The event trace of the fetch loop of `download_pdf`:
`current_page = 1; while current_page <= total_pages: download; if
current_page != total_pages: _go_to_next_page; current_page += 1`. -/
def fetch_events (current total : Nat) : List FetchEvent :=
  if h : current ≤ total then
    FetchEvent.download current ::
      (if current ≠ total then FetchEvent.advance :: fetch_events (current + 1) total
       else fetch_events (current + 1) total)
  else []
termination_by total + 1 - current
decreasing_by all_goals omega

/-- The page indices downloaded along a fetch-loop trace, in order. -/
def downloads (es : List FetchEvent) : List Nat :=
  es.filterMap fun e => match e with | .download i => some i | .advance => none

/-- Number of viewer advances along a fetch-loop trace. -/
def advance_count (es : List FetchEvent) : Nat :=
  es.countP fun e => match e with | .download _ => false | .advance => true

/-- The page order of the assembled artifact: `_create_pdf` collects the
`.jpg` files of the attempt's directory — which are exactly
`page_file_path dir bk pg i tot` for `i = 1..tot` — and sorts them by
filename (`sorted(glob(...))`).  Since the filename determines the page
index, the artifact's page order is the index list `1..tot` sorted by the
filename key; the comparison sort used models Python's `sorted` (identical
on distinct keys). -/
def assembledIndices (dir : String) (bk pg tot : Nat) : List Nat :=
  List.insertionSort
    (fun i j => str_le (page_file_path dir bk pg i tot) (page_file_path dir bk pg j tot))
    (List.range' 1 tot)

/-- One observable action of `_create_pdf`: adding an image to the in-memory
PDF, deleting a source image (`os.remove`), or writing the output file
(`pdf.output`). -/
inductive PdfEvent
  | add_page (img : String)
  | remove_image (img : String)
  | write_output
deriving DecidableEq

/-- The event trace of `_create_pdf`: `for image in images: pdf.add_page();
pdf.image(image, ...); os.remove(image)` and finally
`pdf.output(output_path, "F")`. -/
def create_pdf_events (images : List String) : List PdfEvent :=
  images.flatMap (fun img => [PdfEvent.add_page img, PdfEvent.remove_image img])
    ++ [PdfEvent.write_output]

/-- On-disk state during `_create_pdf`: the source images still present and
whether the output artifact file has been written. -/
structure PdfDiskState where
  remaining : List String
  artifact_written : Bool
deriving DecidableEq

/-- Effect of one `_create_pdf` event on the disk state. -/
def pdf_step (st : PdfDiskState) : PdfEvent → PdfDiskState
  | .add_page _ => st
  | .remove_image img => ⟨st.remaining.filter (fun s => s != img), st.artifact_written⟩
  | .write_output => ⟨st.remaining, true⟩

/-- Disk state after the first `k` events of `_create_pdf` (a run that fails
after `k` events leaves the disk in this state). -/
def pdf_state (images : List String) (k : Nat) : PdfDiskState :=
  ((create_pdf_events images).take k).foldl pdf_step ⟨images, false⟩

/-- One observable action of a whole `download_pdf` attempt.  `close_browser`
is in the vocabulary so that browser release can be stated, but the source
never quits or closes the `Browser` it creates, so no trace below contains
it.  `acquire_temp_dir`/`release_temp_dir` are entry to and exit from the
`tempfile.TemporaryDirectory` context manager, which removes the directory
on every exit path, normal or exceptional. -/
inductive RunEvent
  | acquire_temp_dir
  | open_browser
  | close_browser
  | visit_base
  | go_to_search
  | fill_search
  | select_document
  | create_session
  | get_num_pages
  | fetch (e : FetchEvent)
  | create_pdf
  | release_temp_dir
deriving DecidableEq

/-- The actions of the body of `download_pdf`'s `with` block, in source
order, for a record with `total` pages. -/
def body_events (total : Nat) : List RunEvent :=
  [RunEvent.open_browser, RunEvent.visit_base, RunEvent.go_to_search,
   RunEvent.fill_search, RunEvent.select_document, RunEvent.create_session,
   RunEvent.get_num_pages]
  ++ (fetch_events 1 total).map RunEvent.fetch
  ++ [RunEvent.create_pdf]

/-- The full trace of one `download_pdf` attempt.  `fail_at = some k` means
the `k`-th body action raises instead of completing; the body stops there
and the context manager still removes the temporary directory as the
exception propagates. -/
def run_events (total : Nat) (fail_at : Option Nat) : List RunEvent :=
  RunEvent.acquire_temp_dir ::
    (match fail_at with
     | none => body_events total
     | some k => (body_events total).take k)
    ++ [RunEvent.release_temp_dir]

/-- Outcome of one `download_pdf` attempt:
whether it raised, the final resource state, the value the call returns
(`download_pdf` has no `return` statement and is annotated `-> None`, so a
completed call always returns nothing), and the artifact file it produced. -/
structure RunOutcome where
  raised : Bool
  browser_closed : Bool
  temp_dir_removed : Bool
  return_value : Option String
  artifact_path : Option String
deriving DecidableEq

/-- One `download_pdf book page output_dir` attempt on a record with `total`
pages, failing at body action `fail_at` (or completing, if `none` or out of
range). -/
def download_pdf_run (book page : Nat) (output_dir : String) (total : Nat)
    (fail_at : Option Nat) : RunOutcome :=
  let es := run_events total fail_at
  let completed : Bool := match fail_at with
    | none => true
    | some k => decide ((body_events total).length ≤ k)
  ⟨!completed,
   decide (RunEvent.close_browser ∈ es),
   decide (RunEvent.release_temp_dir ∈ es),
   none,
   if completed then some (output_path output_dir book page) else none⟩

/-- Messages printed by `main`'s retry loop, plus the terminal
`ValueError`.  `ε` is the type of error payloads: the loop catches every
`Exception` uniformly (`except Exception as ex`), so the trace is
parametric in whatever each failing attempt raised. -/
inductive MainMsg (ε : Type)
  | retry_error (e : ε)
  | success
  | terminal

/-- The trace of `main`'s loop `while retries <= MAX_RETRIES`, parametrised
by the outcome of each attempt: `outcome r = none` means the call of
`download_pdf` with `retries = r` succeeds, `outcome r = some e` means it
raises `e`.  On success `main` prints the confirmation and returns; after
the loop it raises the single terminal `ValueError`. -/
def main_events {ε : Type} (outcome : Nat → Option ε) (retries max_retries : Nat) :
    List (MainMsg ε) :=
  if _h : retries ≤ max_retries then
    match outcome retries with
    | none => [MainMsg.success]
    | some e => MainMsg.retry_error e :: main_events outcome (retries + 1) max_retries
  else [MainMsg.terminal]
termination_by max_retries + 1 - retries
decreasing_by omega

/-- Number of success confirmations in a `main` trace. -/
def success_count {ε : Type} (es : List (MainMsg ε)) : Nat :=
  es.countP fun m => match m with | .success => true | _ => false

/-- Number of terminal errors in a `main` trace. -/
def terminal_count {ε : Type} (es : List (MainMsg ε)) : Nat :=
  es.countP fun m => match m with | .terminal => true | _ => false

/-- Number of `download_pdf` attempts made along a `main` trace: each loop
iteration calls `download_pdf` exactly once and then either prints the
success confirmation or the retry message. -/
def attempts_made {ε : Type} (es : List (MainMsg ε)) : Nat :=
  es.countP fun m => match m with | .terminal => false | _ => true

/-! ### Lemmas about the lexicographic order -/

theorem lexLtB_append_same :
    ∀ (p xs ys : List Char), lexLtB (p ++ xs) (p ++ ys) = lexLtB xs ys := by
  intro p
  induction p with
  | nil => intro xs ys; rfl
  | cons a p ih =>
    intro xs ys
    simp only [List.cons_append, lexLtB, Nat.lt_irrefl, if_false]
    exact ih xs ys

theorem lexLtB_append_of_length_eq :
    ∀ (xs ys r : List Char), xs.length = ys.length → lexLtB xs ys = true →
      lexLtB (xs ++ r) (ys ++ r) = true := by
  intro xs
  induction xs with
  | nil =>
    intro ys r hlen hlt
    cases ys with
    | nil => simp [lexLtB] at hlt
    | cons b bs => simp at hlen
  | cons a as ih =>
    intro ys r hlen hlt
    cases ys with
    | nil => simp at hlen
    | cons b bs =>
      simp only [List.cons_append]
      by_cases hab : a.toNat < b.toNat
      · simp [lexLtB, hab]
      · by_cases hba : b.toNat < a.toNat
        · simp [lexLtB, hab, hba] at hlt
        · simp only [lexLtB, hab, hba, if_false] at hlt ⊢
          exact ih bs r (by simpa using hlen) hlt

theorem lexLtB_head_lt {a b : Char} (h : a.toNat < b.toNat) (as bs : List Char) :
    lexLtB (a :: as) (b :: bs) = true := by
  simp [lexLtB, h]

theorem lexLtB_asymm :
    ∀ (xs ys : List Char), lexLtB xs ys = true → lexLtB ys xs = false := by
  intro xs
  induction xs with
  | nil =>
    intro ys hlt
    cases ys with
    | nil => simp [lexLtB] at hlt
    | cons b bs => simp [lexLtB]
  | cons a as ih =>
    intro ys hlt
    cases ys with
    | nil => simp [lexLtB] at hlt
    | cons b bs =>
      by_cases hab : a.toNat < b.toNat
      · simp [lexLtB, hab, Nat.lt_asymm hab]
      · by_cases hba : b.toNat < a.toNat
        · simp [lexLtB, hab, hba] at hlt
        · simp only [lexLtB, hab, hba, if_false] at hlt ⊢
          exact ih bs hlt

/-- The 2-digit zero padding of `'{:02d}'` is order-preserving (and
length-uniform) on `0..99`. -/
theorem pad2_table : ∀ i < 100, ∀ j < 100, i < j →
    lexLtB (pad 2 i).data (pad 2 j).data = true ∧
      (pad 2 i).data.length = (pad 2 j).data.length := by decide

theorem page_lt_of_pad_lt (dir : String) (bk pg tot : Nat) {i j : Nat}
    (hlen : (pad 2 i).data.length = (pad 2 j).data.length)
    (hlt : lexLtB (pad 2 i).data (pad 2 j).data = true) :
    str_lt (page_file_path dir bk pg i tot) (page_file_path dir bk pg j tot) := by
  unfold str_lt page_file_path page_name
  simp only [String.data_append, List.append_assoc, lexLtB_append_same]
  exact lexLtB_append_of_length_eq _ _ _ hlen hlt

theorem page_file_path_100_lt_99 (dir : String) (bk pg tot : Nat) :
    str_lt (page_file_path dir bk pg 100 tot) (page_file_path dir bk pg 99 tot) := by
  unfold str_lt page_file_path page_name
  simp only [String.data_append, List.append_assoc, lexLtB_append_same]
  have h1 : (pad 2 100).data = '1' :: '0' :: '0' :: [] := by decide
  have h2 : (pad 2 99).data = '9' :: '9' :: [] := by decide
  rw [h1, h2]
  simp only [List.cons_append]
  exact lexLtB_head_lt (by decide) _ _

/-- C5: for one run (fixed book, page, total), if `total <= 99` the transient
filename of page `i` is lexicographically smaller than that of page `j`
whenever `i < j`, so filename sort order equals numeric page order; for
`total >= 100` the equivalence fails: the filename of page 100 sorts
strictly before that of page 99. -/
theorem transient_filename_order :
    (∀ (dir : String) (bk pg tot i j : Nat), 1 ≤ i → i < j → j ≤ tot → tot ≤ 99 →
        str_lt (page_file_path dir bk pg i tot) (page_file_path dir bk pg j tot)) ∧
    (∀ (dir : String) (bk pg tot : Nat), 100 ≤ tot →
        str_lt (page_file_path dir bk pg 100 tot) (page_file_path dir bk pg 99 tot)) := by
  constructor
  · intro dir bk pg tot i j h1 h2 h3 h4
    obtain ⟨hlt, hlen⟩ := pad2_table i (by omega) j (by omega) h2
    exact page_lt_of_pad_lt dir bk pg tot hlen hlt
  · intro dir bk pg tot _
    exact page_file_path_100_lt_99 dir bk pg tot

/-- C5 witness: concrete instances of both halves. -/
theorem transient_filename_order_witness :
    str_lt (page_file_path "d" 500 10 2 3) (page_file_path "d" 500 10 3 3) ∧
    str_lt (page_file_path "d" 500 10 100 100) (page_file_path "d" 500 10 99 100) :=
  ⟨transient_filename_order.1 "d" 500 10 3 2 3 (by decide) (by decide) (by decide) (by decide),
   transient_filename_order.2 "d" 500 10 100 (by decide)⟩

/-- C6: for book 500, page 10, the artifact filename is exactly
`plymouth_cty_reg_deeds_book000500_page000010.pdf`; in general a completed
attempt places the artifact at `output_dir/pdf_name book page`, a
deterministic function of the record key alone. -/
theorem artifact_filename_spec :
    pdf_name 500 10 = "plymouth_cty_reg_deeds_book000500_page000010.pdf" ∧
    (∀ (output_dir : String) (book page total : Nat),
        (download_pdf_run book page output_dir total none).artifact_path =
          some (output_dir ++ "/" ++ pdf_name book page)) := by
  refine ⟨by decide, fun d b p t => rfl⟩

/-- C7: `_go_to_search_page` picks exactly one of two search entry points by
comparing the book number with the fixed threshold 2393: below the threshold
`LinkButton02`, at or above it `LinkButton01`, and the two entry points are
distinct. -/
theorem search_entry_point_threshold :
    ∀ book : Nat,
      (book < 2393 → search_button_id book = "Navigator1_SearchCriteria1_LinkButton02") ∧
      (2393 ≤ book → search_button_id book = "Navigator1_SearchCriteria1_LinkButton01") ∧
      "Navigator1_SearchCriteria1_LinkButton02" ≠ "Navigator1_SearchCriteria1_LinkButton01" := by
  intro book
  refine ⟨fun h => by simp [search_button_id, h],
          fun h => by simp [search_button_id, Nat.not_lt.mpr h],
          by decide⟩

/-- C7 witness: both sides of the threshold. -/
theorem search_entry_point_threshold_witness :
    search_button_id 2392 = "Navigator1_SearchCriteria1_LinkButton02" ∧
    search_button_id 2393 = "Navigator1_SearchCriteria1_LinkButton01" :=
  ⟨(search_entry_point_threshold 2392).1 (by decide),
   (search_entry_point_threshold 2393).2.1 (by decide)⟩

/-! ### Lemmas about `replaceAll` (Python `str.replace`) -/

theorem replaceAll_nil (pat rep : List Char) : replaceAll pat rep [] = [] := by
  simp only [replaceAll]

theorem replaceAll_cons_pos (pat rep : List Char) (c : Char) (cs : List Char)
    (h : pat.isPrefixOf (c :: cs) = true) :
    replaceAll pat rep (c :: cs) = rep ++ replaceAll pat rep (cs.drop (pat.length - 1)) := by
  simp only [replaceAll]
  rw [if_pos h]

theorem replaceAll_cons_neg (pat rep : List Char) (c : Char) (cs : List Char)
    (h : pat.isPrefixOf (c :: cs) = false) :
    replaceAll pat rep (c :: cs) = c :: replaceAll pat rep cs := by
  simp only [replaceAll]
  rw [if_neg (by simp [h])]

theorem isPrefixOf_self_append : ∀ (l t : List Char), l.isPrefixOf (l ++ t) = true := by
  intro l
  induction l with
  | nil => intro t; simp
  | cons a l ih =>
    intro t
    simp only [List.cons_append, List.isPrefixOf_cons₂, beq_self_eq_true, Bool.true_and]
    exact ih t

theorem replaceAll_no_occ (pat rep : List Char) :
    ∀ xs, (∀ i, i < xs.length → pat.isPrefixOf (xs.drop i) = false) →
      replaceAll pat rep xs = xs := by
  intro xs
  induction xs with
  | nil => intro _; exact replaceAll_nil pat rep
  | cons c cs ih =>
    intro h
    have h0 : pat.isPrefixOf (c :: cs) = false := by simpa using h 0 (by simp)
    have h' : ∀ i, i < cs.length → pat.isPrefixOf (cs.drop i) = false := by
      intro i hi
      have := h (i + 1) (by simpa using Nat.succ_lt_succ hi)
      simpa [List.drop_succ_cons] using this
    rw [replaceAll_cons_neg pat rep c cs h0, ih h']

theorem replaceAll_first (pat rep : List Char) (hpat : pat ≠ []) :
    ∀ p s, (∀ i, i < p.length → pat.isPrefixOf ((p ++ (pat ++ s)).drop i) = false) →
      replaceAll pat rep (p ++ (pat ++ s)) = p ++ (rep ++ replaceAll pat rep s) := by
  intro p
  induction p with
  | nil =>
    intro s _
    obtain ⟨c, cs, rfl⟩ : ∃ c cs, pat = c :: cs := by
      cases pat with
      | nil => exact absurd rfl hpat
      | cons c cs => exact ⟨c, cs, rfl⟩
    have hpre : (c :: cs).isPrefixOf (c :: (cs ++ s)) = true :=
      isPrefixOf_self_append (c :: cs) s
    simp only [List.nil_append, List.cons_append]
    rw [replaceAll_cons_pos _ _ _ _ hpre]
    simp only [List.length_cons, Nat.add_sub_cancel, List.drop_left]
  | cons a p' ih =>
    intro s h
    have h0 : pat.isPrefixOf (a :: (p' ++ (pat ++ s))) = false := by
      have := h 0 (by simp)
      simpa [List.cons_append] using this
    have h' : ∀ i, i < p'.length → pat.isPrefixOf ((p' ++ (pat ++ s)).drop i) = false := by
      intro i hi
      have := h (i + 1) (by simp only [List.length_cons]; omega)
      simpa [List.cons_append, List.drop_succ_cons] using this
    simp only [List.cons_append]
    rw [replaceAll_cons_neg _ _ _ _ h0, ih s h']

/-- C8: on a URL whose single occurrence of the viewer's minimum zoom
parameter `ZOOM=1` sits between `p` and `s` (with no occurrence of the
pattern starting inside `p` or inside `s`), `_get_page_url` returns the URL
with that parameter rewritten to `ZOOM=6` and everything else unchanged. -/
theorem get_page_url_rewrites_zoom :
    ∀ (p s : List Char),
      (∀ i, i < p.length →
        ("ZOOM=1".data).isPrefixOf ((p ++ ("ZOOM=1".data ++ s)).drop i) = false) →
      (∀ i, i < s.length → ("ZOOM=1".data).isPrefixOf (s.drop i) = false) →
      get_page_url (String.mk (p ++ ("ZOOM=1".data ++ s))) =
        String.mk (p ++ ("ZOOM=6".data ++ s)) := by
  intro p s hp hs
  unfold get_page_url
  refine congrArg String.mk ?_
  show replaceAll "ZOOM=1".data "ZOOM=6".data (p ++ ("ZOOM=1".data ++ s)) = _
  rw [replaceAll_first _ _ (by decide) p s hp]
  rw [replaceAll_no_occ _ _ s hs]

/-- C8 witness: a concrete viewer URL. -/
theorem get_page_url_rewrites_zoom_witness :
    get_page_url (String.mk ("http://titleview.org/plymouthdeeds/ACSResource.axd?SCT=4&".data
        ++ ("ZOOM=1".data ++ "&W=1440".data))) =
      String.mk ("http://titleview.org/plymouthdeeds/ACSResource.axd?SCT=4&".data
        ++ ("ZOOM=6".data ++ "&W=1440".data)) :=
  get_page_url_rewrites_zoom _ _ (by decide) (by decide)

/-! ### The fetch loop and the assembled page order -/

theorem fetch_events_stop (current total : Nat) (h : ¬ current ≤ total) :
    fetch_events current total = [] := by
  rw [fetch_events, dif_neg h]

theorem fetch_events_canonical :
    ∀ (n current total : Nat), total - current = n → current ≤ total →
      fetch_events current total =
        ((List.range' current (total - current)).flatMap
          (fun i => [FetchEvent.download i, FetchEvent.advance]))
          ++ [FetchEvent.download total] := by
  intro n
  induction n with
  | zero =>
    intro current total h0 hle
    have hct : current = total := by omega
    subst hct
    rw [fetch_events, dif_pos hle]
    rw [if_neg (by omega : ¬ current ≠ current)]
    rw [fetch_events_stop (current + 1) current (by omega)]
    simp
  | succ n ih =>
    intro current total h0 hle
    have hlt : current < total := by omega
    rw [fetch_events, dif_pos hle]
    rw [if_pos (by omega : current ≠ total)]
    rw [ih (current + 1) total (by omega) (by omega)]
    have hsub : total - current = (total - (current + 1)) + 1 := by omega
    rw [hsub, List.range'_succ]
    simp

theorem downloads_flatMap_pairs :
    ∀ l : List Nat,
      downloads (l.flatMap (fun i => [FetchEvent.download i, FetchEvent.advance])) = l := by
  intro l
  induction l with
  | nil => rfl
  | cons a t ih =>
    simp only [downloads, List.flatMap_cons, List.cons_append, List.nil_append,
      List.filterMap_cons] at ih ⊢
    simp_all

theorem downloads_fetch (total : Nat) (h : 1 ≤ total) :
    downloads (fetch_events 1 total) = List.range' 1 total := by
  rw [fetch_events_canonical (total - 1) 1 total (by omega) (by omega)]
  have h1 : total - 1 + 1 = total := by omega
  simp only [downloads, List.filterMap_append] at *
  have h2 := downloads_flatMap_pairs (List.range' 1 (total - 1))
  simp only [downloads] at h2
  rw [h2]
  have h3 : List.range' 1 total = List.range' 1 (total - 1) ++ [1 + 1 * (total - 1)] := by
    conv_lhs => rw [show total = (total - 1) + 1 from by omega]
    exact List.range'_concat 1 (total - 1)
  rw [h3]
  simp only [List.filterMap_cons, List.filterMap_nil]
  have h4 : 1 + 1 * (total - 1) = total := by omega
  rw [h4]

/-- C1 counterexample: for a record with `N = 100` pages the claim fails:
the assembled artifact does contain exactly 100 pages, but its page order is
not strictly increasing (the 2-digit padding makes the filename of page 100
sort before that of page 99). -/
theorem assembled_order_breaks_at_100 :
    (assembledIndices "d" 1 2 100).length = 100 ∧
    strict_incr (assembledIndices "d" 1 2 100) = false := by
  constructor
  · simp only [assembledIndices, List.length_insertionSort, List.length_range']
  · decide

/-- C1 amended: for every record with `N >= 1` pages, the fetch loop
downloads page images with indices exactly `1..N`, advancing the viewer
exactly after each download with index `< N`; the assembled artifact
contains exactly `N` pages, and they are in strictly increasing page-index
order whenever `N <= 99` (the 2-digit filename padding bound — see the
counterexample for `N = 100`). -/
theorem fetch_and_assembly_amended :
    ∀ (dir : String) (bk pg N : Nat), 1 ≤ N →
      downloads (fetch_events 1 N) = List.range' 1 N ∧
      fetch_events 1 N =
        ((List.range' 1 (N - 1)).flatMap
          (fun i => [FetchEvent.download i, FetchEvent.advance]))
          ++ [FetchEvent.download N] ∧
      (assembledIndices dir bk pg N).length = N ∧
      (N ≤ 99 → assembledIndices dir bk pg N = List.range' 1 N) := by
  intro dir bk pg N hN
  refine ⟨downloads_fetch N hN, ?_, ?_, ?_⟩
  · have := fetch_events_canonical (N - 1) 1 N (by omega) (by omega)
    simpa using this
  · simp only [assembledIndices, List.length_insertionSort, List.length_range']
  · intro h99
    apply List.Sorted.insertionSort_eq
    have hp : List.Pairwise (· < ·) (List.range' 1 N) := List.pairwise_lt_range' 1 N
    refine List.Pairwise.imp_of_mem ?_ hp
    intro a b ha hb hab
    rw [List.mem_range'_1] at ha hb
    obtain ⟨hlt, hlen⟩ := pad2_table a (by omega) b (by omega) hab
    have hfl : str_lt (page_file_path dir bk pg a N) (page_file_path dir bk pg b N) :=
      page_lt_of_pad_lt dir bk pg N hlen hlt
    exact lexLtB_asymm _ _ hfl

/-- C1 witness for the amended statement: a 3-page record. -/
theorem fetch_and_assembly_amended_witness :
    downloads (fetch_events 1 3) = [1, 2, 3] ∧
    fetch_events 1 3 =
      [FetchEvent.download 1, FetchEvent.advance, FetchEvent.download 2,
       FetchEvent.advance, FetchEvent.download 3] ∧
    assembledIndices "d" 500 10 3 = [1, 2, 3] := by
  obtain ⟨h1, h2, _, h4⟩ := fetch_and_assembly_amended "d" 500 10 3 (by decide)
  refine ⟨?_, ?_, ?_⟩
  · rw [h1]; decide
  · rw [h2]; decide
  · rw [h4 (by decide)]; decide

/-- C10: if the page-count label parses to a total below 1 (here 0), the
attempt performs no downloads and no viewer advances, assembly still runs to
completion producing an artifact with zero pages, the attempt does not
raise, and the process-level loop reports success. -/
theorem zero_pages_run :
    ∀ (dir output_dir : String) (bk pg : Nat),
      fetch_events 1 0 = [] ∧
      downloads (fetch_events 1 0) = [] ∧
      advance_count (fetch_events 1 0) = 0 ∧
      assembledIndices dir bk pg 0 = [] ∧
      create_pdf_events [] = [PdfEvent.write_output] ∧
      (download_pdf_run bk pg output_dir 0 none).raised = false ∧
      (download_pdf_run bk pg output_dir 0 none).artifact_path =
        some (output_path output_dir bk pg) ∧
      success_count (main_events (fun _ => (none : Option Unit)) 0 MAX_RETRIES) = 1 := by
  intro dir output_dir bk pg
  have h0 : fetch_events 1 0 = [] := fetch_events_stop 1 0 (by omega)
  refine ⟨h0, ?_, ?_, rfl, rfl, rfl, rfl, ?_⟩
  · rw [h0]; rfl
  · rw [h0]; rfl
  · rw [main_events, dif_pos (by decide : (0 : Nat) ≤ MAX_RETRIES)]
    rfl

/-! ### `_create_pdf`: all source deletions happen before the output write -/

theorem pdf_fold_no_output :
    ∀ (es : List PdfEvent) (st : PdfDiskState), PdfEvent.write_output ∉ es →
      (es.foldl pdf_step st).artifact_written = st.artifact_written := by
  intro es
  induction es with
  | nil => intro st _; rfl
  | cons e t ih =>
    intro st h
    have he : e ≠ PdfEvent.write_output := fun heq => h (heq ▸ List.mem_cons_self e t)
    rw [List.foldl_cons, ih _ (fun hm => h (List.mem_cons_of_mem e hm))]
    cases e with
    | add_page img => rfl
    | remove_image img => rfl
    | write_output => exact absurd rfl he

theorem consume_length : ∀ imgs : List String,
    (imgs.flatMap (fun img => [PdfEvent.add_page img, PdfEvent.remove_image img])).length
      = 2 * imgs.length := by
  intro imgs
  induction imgs with
  | nil => rfl
  | cons a t ih =>
    rw [List.flatMap_cons, List.length_append, ih]
    simp only [List.length_cons, List.length_nil]
    omega

theorem write_not_mem_consume : ∀ imgs : List String,
    PdfEvent.write_output ∉
      imgs.flatMap (fun img => [PdfEvent.add_page img, PdfEvent.remove_image img]) := by
  intro imgs h
  rw [List.mem_flatMap] at h
  obtain ⟨img, _, hm⟩ := h
  simp at hm

theorem fold_consume : ∀ (imgs : List String) (st : PdfDiskState),
    (imgs.flatMap (fun img => [PdfEvent.add_page img, PdfEvent.remove_image img])).foldl
        pdf_step st
      = ⟨imgs.foldl (fun l i => l.filter (fun s => s != i)) st.remaining,
         st.artifact_written⟩ := by
  intro imgs
  induction imgs with
  | nil => intro st; rfl
  | cons a t ih =>
    intro st
    rw [List.flatMap_cons, List.foldl_append, ih]
    rfl

theorem remove_all_of_subset : ∀ (l st : List String), (∀ x ∈ st, x ∈ l) →
    l.foldl (fun acc i => acc.filter (fun s => s != i)) st = [] := by
  intro l
  induction l with
  | nil =>
    intro st h
    have : st = [] :=
      List.eq_nil_iff_forall_not_mem.mpr (fun x hx => by simpa using h x hx)
    simp [this]
  | cons i t ih =>
    intro st h
    rw [List.foldl_cons]
    apply ih
    intro x hx
    rw [List.mem_filter] at hx
    obtain ⟨hx1, hx2⟩ := hx
    have hmem := h x hx1
    rw [List.mem_cons] at hmem
    cases hmem with
    | inl heq => exact absurd heq (by simpa using hx2)
    | inr hm => exact hm

theorem create_pdf_events_length : ∀ imgs : List String,
    (create_pdf_events imgs).length = 2 * imgs.length + 1 := by
  intro imgs
  rw [create_pdf_events, List.length_append, consume_length]
  rfl

theorem pdf_state_full_consume (imgs : List String) :
    pdf_state imgs (2 * imgs.length) = ⟨[], false⟩ := by
  have h := consume_length imgs
  rw [pdf_state, create_pdf_events, ← h, List.take_left, fold_consume,
    remove_all_of_subset imgs imgs (fun x hx => hx)]

theorem pdf_state_no_artifact (imgs : List String) (k : Nat) (hk : k ≤ 2 * imgs.length) :
    (pdf_state imgs k).artifact_written = false := by
  have h := consume_length imgs
  rw [pdf_state, create_pdf_events,
    List.take_append_of_le_length (by rw [h]; exact hk)]
  exact pdf_fold_no_output _ _
    (fun hm => write_not_mem_consume imgs (List.take_subset _ _ hm))

theorem pdf_state_artifact_remaining (imgs : List String) (k : Nat)
    (h : (pdf_state imgs k).artifact_written = true) :
    (pdf_state imgs k).remaining = [] := by
  by_cases hk : k ≤ 2 * imgs.length
  · rw [pdf_state_no_artifact imgs k hk] at h
    cases h
  · have hlen : (create_pdf_events imgs).length ≤ k := by
      rw [create_pdf_events_length]
      omega
    rw [pdf_state, List.take_of_length_le hlen, create_pdf_events, List.foldl_append,
      fold_consume, remove_all_of_subset imgs imgs (fun x hx => hx)]
    rfl

/-- C9: during `_create_pdf`, every source-image deletion happens before the
output artifact is written: whenever the artifact file exists, every source
image has already been removed; no prefix of the run that stops at or before
the final event has written the artifact; and at the point of the final
write (a failure during `pdf.output`) all sources are already deleted while
no artifact file exists.  The write event is the single last event. -/
theorem assembly_deletion_precedes_output :
    ∀ (images : List String) (k : Nat),
      ((pdf_state images k).artifact_written = true → (pdf_state images k).remaining = []) ∧
      (k ≤ 2 * images.length → (pdf_state images k).artifact_written = false) ∧
      pdf_state images (2 * images.length) = ⟨[], false⟩ ∧
      (create_pdf_events images).length = 2 * images.length + 1 :=
  fun images k =>
    ⟨pdf_state_artifact_remaining images k, pdf_state_no_artifact images k,
     pdf_state_full_consume images, create_pdf_events_length images⟩

/-- C9 witness: a two-image assembly, after all five events and after four. -/
theorem assembly_deletion_precedes_output_witness :
    (pdf_state ["a.jpg", "b.jpg"] 5).remaining = [] ∧
    (pdf_state ["a.jpg", "b.jpg"] 4).artifact_written = false :=
  ⟨(assembly_deletion_precedes_output ["a.jpg", "b.jpg"] 5).1 (by decide),
   (assembly_deletion_precedes_output ["a.jpg", "b.jpg"] 4).2.1 (by decide)⟩

/-! ### Resource behaviour of a `download_pdf` attempt -/

theorem close_browser_not_mem_body (total : Nat) :
    RunEvent.close_browser ∉ body_events total := by
  intro h
  simp [body_events] at h

theorem close_browser_not_mem_run (total : Nat) (fa : Option Nat) :
    RunEvent.close_browser ∉ run_events total fa := by
  intro h
  cases fa with
  | none =>
    simp [run_events] at h
    exact close_browser_not_mem_body total h
  | some k =>
    simp [run_events] at h
    exact close_browser_not_mem_body total (List.take_subset _ _ h)

/-- C3 (the code violates the claim): on any attempt that fails at body
action `k` — in particular mid-way through the fetch loop, after the browser
was created — the temporary storage area is removed by the context manager,
but the interactive session (the `Browser`) is never closed: the source has
no `quit`/`close` call on any path.  The concrete conjuncts evaluate the
model at a 3-page record failing while downloading page 2 (body action 9,
after `open_browser`). -/
theorem cleanup_on_failure_state :
    ∀ (book page : Nat) (output_dir : String) (total k : Nat),
      (download_pdf_run book page output_dir total (some k)).temp_dir_removed = true ∧
      (download_pdf_run book page output_dir total (some k)).browser_closed = false ∧
      RunEvent.open_browser ∈ run_events 3 (some 9) ∧
      (download_pdf_run 500 10 "dest" 3 (some 9)).raised = true ∧
      (download_pdf_run 500 10 "dest" 3 (some 9)).browser_closed = false := by
  intro book page output_dir total k
  refine ⟨?_, ?_, ?_, ?_, ?_⟩
  · simp only [download_pdf_run, decide_eq_true_eq]
    simp [run_events]
  · simp only [download_pdf_run, decide_eq_false_iff_not]
    exact close_browser_not_mem_run total (some k)
  · simp [run_events, body_events, fetch_events]
  · simp [download_pdf_run, run_events, body_events, fetch_events]
  · simp only [download_pdf_run, decide_eq_false_iff_not]
    exact close_browser_not_mem_run 3 (some 9)

/-- C4 counterexample: a completed (non-raising) attempt for book 500, page
10 writes the artifact file into the destination directory but returns
nothing — `download_pdf` has no `return` statement — so the run operation
does not return the artifact path (nor any value identifying it). -/
theorem download_pdf_returns_no_path :
    (download_pdf_run 500 10 "dest" 3 none).raised = false ∧
    (download_pdf_run 500 10 "dest" 3 none).artifact_path =
      some "dest/plymouth_cty_reg_deeds_book000500_page000010.pdf" ∧
    (download_pdf_run 500 10 "dest" 3 none).return_value = none ∧
    (download_pdf_run 500 10 "dest" 3 none).return_value ≠
      (download_pdf_run 500 10 "dest" 3 none).artifact_path := by
  refine ⟨rfl, ?_, rfl, ?_⟩
  · show some (output_path "dest" 500 10) = _
    decide
  · show (none : Option String) ≠ some (output_path "dest" 500 10)
    decide

/-- C4 amended: on a successful attempt the pipeline writes the artifact at
the deterministic path under the destination directory and stops retrying
(a succeeding iteration of `main`'s loop prints the confirmation and returns
immediately); the run operation itself returns no value — the artifact path
is communicated only through the file system. -/
theorem success_writes_artifact_and_stops :
    ∀ (book page : Nat) (output_dir : String) (total : Nat),
      (download_pdf_run book page output_dir total none).raised = false ∧
      (download_pdf_run book page output_dir total none).artifact_path =
        some (output_path output_dir book page) ∧
      (download_pdf_run book page output_dir total none).return_value = none ∧
      (∀ (ε : Type) (outcome : Nat → Option ε) (r maxR : Nat),
        r ≤ maxR → outcome r = none →
          main_events outcome r maxR = [MainMsg.success]) := by
  intro book page output_dir total
  refine ⟨rfl, rfl, rfl, ?_⟩
  intro ε outcome r maxR h1 h2
  rw [main_events, dif_pos h1, h2]

/-- C4 witness for the amended statement: a success on the second attempt
ends the loop at once. -/
theorem success_writes_artifact_and_stops_witness :
    main_events (fun _ => (none : Option Unit)) 1 MAX_RETRIES = [MainMsg.success] :=
  (success_writes_artifact_and_stops 500 10 "dest" 3).2.2.2 Unit
    (fun _ => none) 1 MAX_RETRIES (by decide) rfl

/-! ### The retry loop of `main` -/

theorem main_events_fail_step {ε : Type} (outcome : Nat → Option ε) (r maxR : Nat) (e : ε)
    (h1 : r ≤ maxR) (h2 : outcome r = some e) :
    main_events outcome r maxR = MainMsg.retry_error e :: main_events outcome (r + 1) maxR := by
  rw [main_events, dif_pos h1, h2]

theorem main_events_exhausted {ε : Type} (outcome : Nat → Option ε) (r maxR : Nat)
    (h : ¬ r ≤ maxR) : main_events outcome r maxR = [MainMsg.terminal] := by
  rw [main_events, dif_neg h]

theorem main_counts_of_eventual_success {ε : Type} (outcome : Nat → Option ε) (maxR : Nat) :
    ∀ (k r : Nat), r + k ≤ maxR → (∀ i, i < k → outcome (r + i) ≠ none) →
      outcome (r + k) = none →
      success_count (main_events outcome r maxR) = 1 ∧
      terminal_count (main_events outcome r maxR) = 0 ∧
      attempts_made (main_events outcome r maxR) = k + 1 := by
  intro k
  induction k with
  | zero =>
    intro r hle hfail hsucc
    rw [main_events, dif_pos (by omega : r ≤ maxR),
      (by simpa using hsucc : outcome r = none)]
    exact ⟨rfl, rfl, rfl⟩
  | succ k ih =>
    intro r hle hfail hsucc
    obtain ⟨e, he⟩ : ∃ e, outcome r = some e := by
      cases hoc : outcome r with
      | none => exact absurd hoc (by simpa using hfail 0 (by omega))
      | some e => exact ⟨e, rfl⟩
    rw [main_events_fail_step outcome r maxR e (by omega) he]
    have hshift : ∀ i, i < k → outcome (r + 1 + i) ≠ none := by
      intro i hi
      rw [show r + 1 + i = r + (i + 1) from by omega]
      exact hfail (i + 1) (by omega)
    have hsucc' : outcome (r + 1 + k) = none := by
      rw [show r + 1 + k = r + (k + 1) from by omega]
      exact hsucc
    obtain ⟨hs, ht, ha⟩ := ih (r + 1) (by omega) hshift hsucc'
    refine ⟨?_, ?_, ?_⟩
    · simpa [success_count, List.countP_cons] using hs
    · simpa [terminal_count, List.countP_cons] using ht
    · simp only [attempts_made] at ha ⊢
      rw [List.countP_cons, ha]
      simp

theorem main_counts_of_all_fail {ε : Type} (outcome : Nat → Option ε) (maxR : Nat) :
    ∀ (n r : Nat), maxR + 1 - r = n → (∀ i, r ≤ i → i ≤ maxR → outcome i ≠ none) →
      terminal_count (main_events outcome r maxR) = 1 ∧
      success_count (main_events outcome r maxR) = 0 ∧
      attempts_made (main_events outcome r maxR) = maxR + 1 - r := by
  intro n
  induction n with
  | zero =>
    intro r h0 hfail
    rw [main_events_exhausted outcome r maxR (by omega)]
    refine ⟨rfl, rfl, ?_⟩
    have h1 : attempts_made ([MainMsg.terminal] : List (MainMsg ε)) = 0 := rfl
    omega
  | succ n ih =>
    intro r h0 hfail
    have hr : r ≤ maxR := by omega
    obtain ⟨e, he⟩ : ∃ e, outcome r = some e := by
      cases hoc : outcome r with
      | none => exact absurd hoc (hfail r (Nat.le_refl r) hr)
      | some e => exact ⟨e, rfl⟩
    rw [main_events_fail_step outcome r maxR e hr he]
    obtain ⟨ht, hs, ha⟩ := ih (r + 1) (by omega) (fun i h1 h2 => hfail i (by omega) h2)
    refine ⟨?_, ?_, ?_⟩
    · simpa [terminal_count, List.countP_cons] using ht
    · simpa [success_count, List.countP_cons] using hs
    · simp only [attempts_made] at ha ⊢
      rw [List.countP_cons, ha]
      simp only [if_pos trivial]
      omega

/-- C2: the retry law of `main`.  If the first `k` attempts (numbered from
0: attempt `r` is the call with `retries = r`) fail and attempt `k` with
`k <= max_retries` succeeds, the run reports success exactly once, raises no
terminal error, and makes exactly `k + 1` attempts.  If every attempt
`0..max_retries` fails, the run makes exactly `max_retries + 1` attempts and
raises exactly one terminal error.  The trace is parametric in the error
payload of each failing attempt: the loop treats all error kinds
uniformly. -/
theorem retry_law :
    ∀ (ε : Type) (outcome : Nat → Option ε) (maxR k : Nat),
      (k ≤ maxR → (∀ i, i < k → outcome i ≠ none) → outcome k = none →
        success_count (main_events outcome 0 maxR) = 1 ∧
        terminal_count (main_events outcome 0 maxR) = 0 ∧
        attempts_made (main_events outcome 0 maxR) = k + 1) ∧
      ((∀ i, i ≤ maxR → outcome i ≠ none) →
        terminal_count (main_events outcome 0 maxR) = 1 ∧
        success_count (main_events outcome 0 maxR) = 0 ∧
        attempts_made (main_events outcome 0 maxR) = maxR + 1) := by
  intro ε outcome maxR k
  constructor
  · intro h1 h2 h3
    exact main_counts_of_eventual_success outcome maxR k 0 (by omega)
      (fun i hi => by simpa using h2 i hi) (by simpa using h3)
  · intro h
    have := main_counts_of_all_fail outcome maxR (maxR + 1) 0 (by omega)
      (fun i _ h2 => h i h2)
    simpa using this

/-- C2 witness: with `MAX_RETRIES = 2`, one failure then a success gives one
success report in two attempts; three failures (of any kinds) give one
terminal error after three attempts. -/
theorem retry_law_witness :
    success_count
        (main_events (fun i => if i = 0 then some "NavigationError" else none)
          0 MAX_RETRIES) = 1 ∧
    attempts_made
        (main_events (fun i => if i = 0 then some "NavigationError" else none)
          0 MAX_RETRIES) = 2 ∧
    terminal_count (main_events (fun _ => some "TransferError") 0 MAX_RETRIES) = 1 ∧
    attempts_made (main_events (fun _ => some "TransferError") 0 MAX_RETRIES) = 3 := by
  obtain ⟨hs, -, ha⟩ :=
    (retry_law String (fun i => if i = 0 then some "NavigationError" else none)
      MAX_RETRIES 1).1 (by decide) (by decide) (by decide)
  obtain ⟨ht2, -, ha2⟩ :=
    (retry_law String (fun _ => some "TransferError") MAX_RETRIES 0).2 (by decide)
  exact ⟨hs, ha, ht2, ha2⟩

end DeedFinder
